import Mathlib

/-!
Verification development for the dual-mode document-intelligence layer of the
keystone repository.  The definitions below are a shallow embedding of
src/services/offlineService.ts and src/services/apiService.ts: pure string
and list computations are translated directly, the stateful module globals
(the vector store slot and the chat-history map) become an explicit state
record threaded through each operation, and the external capabilities
(pdf extraction, the langchain text splitter, embeddings, retrieval and the
local LLM) become injected provider functions returning Except values.

A note on error propagation that the embedding must capture faithfully: in
apiService.ts every public method has the shape

  try { return this.someAsyncBranch(args); } catch (e) { throw new Error(msg); }

inside an async method, where both branches are themselves async and so never
throw synchronously.  Returning a promise from a try block without awaiting it
means a later rejection of that promise is NOT observed by the catch clause:
the wrapper's catch is dead code and the inner rejection reaches the caller
unchanged.  The embedding therefore propagates the inner error value as-is.
-/

namespace Keystone

/-- Node shape pushed by generateGraphDataFromText:
id, label, color, and the title string "Legal Section: ...". -/
structure GraphNode where
  id : Nat
  label : String
  color : String
  title : String
deriving DecidableEq, Repr

/-- Edge shape pushed by generateGraphDataFromText; the TS object is
x7b from, to, color: x7b color: "#888888", width: 2 x7d x7d, with `from`
renamed to fromId and `to` to toId since `from` is a Lean keyword. -/
structure GraphEdge where
  fromId : Nat
  toId : Nat
  edgeColor : String
  width : Nat
deriving DecidableEq, Repr

/-- GraphData as returned to the UI. -/
structure GraphData where
  nodes : List GraphNode
  edges : List GraphEdge
deriving DecidableEq, Repr

/-! ## Whole-word, case-insensitive matching

generateGraphDataFromText tests each fixed section label with
new RegExp("\\b" + escaped(section) + "\\b", "gi").test(text).
The labels consist only of ASCII letters and spaces, so the escaping step is
the identity.  A JS word boundary separates a \w character ([A-Za-z0-9_])
from a non-\w character or the string edge; every label starts and ends with
a letter, so the regex matches exactly when the label occurs (ignoring case)
at a position whose preceding character (if any) is not a word character and
whose following character (if any) is not a word character. -/

/-- JS \w: ASCII letters, digits, underscore. -/
def isWordChar (c : Char) : Bool := c.isAlphanum || c == '_'

/-- Case-insensitive character comparison (the regex i flag). -/
def charEqCI (a b : Char) : Bool := a.toLower == b.toLower

/-- Does txt start with pat, comparing case-insensitively? -/
def headMatchCI : List Char → List Char → Bool
  | [], _ => true
  | _ :: _, [] => false
  | p :: ps, c :: cs => charEqCI p c && headMatchCI ps cs

/-- The character right after a match of pat must not be a word character. -/
def boundaryAfter (pat txt : List Char) : Bool :=
  match txt.drop pat.length with
  | [] => true
  | c :: _ => !isWordChar c

/-- Whole-word match of pat at the current position; prev is the character
immediately before the position (none at the start of the string). -/
def wholeWordAt (pat txt : List Char) (prev : Option Char) : Bool :=
  (match prev with
   | none => true
   | some c => !isWordChar c)
  && headMatchCI pat txt && boundaryAfter pat txt

/-- Scan of the whole text for a whole-word, case-insensitive match. -/
def wholeWordSearch (pat : List Char) : Option Char → List Char → Bool
  | prev, [] => wholeWordAt pat [] prev
  | prev, c :: cs => wholeWordAt pat (c :: cs) prev || wholeWordSearch pat (some c) cs

/-- sectionRegex.test(text) of the source. -/
def sectionRegexTest (sec text : String) : Bool :=
  wholeWordSearch sec.data none text.data

/-! ## String.includes (case-sensitive substring), used for the color map -/

/-- Does txt start with pat (exact)? -/
def headMatchExact : List Char → List Char → Bool
  | [], _ => true
  | _ :: _, [] => false
  | p :: ps, c :: cs => p == c && headMatchExact ps cs

/-- Substring occurrence of pat in txt. -/
def substrSearch : List Char → List Char → Bool
  | pat, [] => headMatchExact pat []
  | pat, c :: cs => headMatchExact pat (c :: cs) || substrSearch pat cs

/-- JS hay.includes(needle). -/
def strIncludes (hay needle : String) : Bool := substrSearch needle.data hay.data

/-! ## The graph heuristic of offlineService.generateGraphDataFromText -/

/-- The fixed list of legal document section labels. -/
def legalSections : List String :=
  ["SERVICE AGREEMENT",
   "RECITALS",
   "DEFINITIONS",
   "SCOPE OF SERVICES",
   "COMPENSATION",
   "REPRESENTATIONS AND WARRANTIES",
   "TERMINATION",
   "INDEMNIFICATION",
   "FORCE MAJEURE",
   "GOVERNING LAW",
   "DISPUTE RESOLUTION",
   "CONFIDENTIALITY",
   "INTELLECTUAL PROPERTY",
   "LIABILITY",
   "SURVIVAL",
   "ENSURE PERFORMANCE",
   "BREACH",
   "REMEDIES"]

/-- The if/else-if chain assigning a color to a matched section label. -/
def sectionColor (s : String) : String :=
  if strIncludes s "AGREEMENT" || strIncludes s "SERVICE" then "#FF6347"
  else if strIncludes s "COMPENSATION" || strIncludes s "PAYMENT" then "#32CD32"
  else if strIncludes s "REPRESENTATIONS" || strIncludes s "WARRANTIES" then "#1E90FF"
  else if strIncludes s "TERMINATION" || strIncludes s "BREACH" then "#FF4500"
  else if strIncludes s "DEFINITIONS" || strIncludes s "RECITALS" then "#9370DB"
  else "#FFD700"

/-- The node pushed for a matched section. -/
def mkSectionNode (nodeId : Nat) (s : String) : GraphNode :=
  { id := nodeId, label := s, color := sectionColor s, title := "Legal Section: " ++ s }

/-- The edge pushed connecting the new node to the previously emitted node. -/
def mkChainEdge (a b : Nat) : GraphEdge :=
  { fromId := a, toId := b, edgeColor := "#888888", width := 2 }

/-- The loop body when the section matched: push the node, push the edge to the
previous node when nodeId exceeds 1, increment nodeId. -/
def graphEmit (acc : List GraphNode × List GraphEdge × Nat) (s : String) :
    List GraphNode × List GraphEdge × Nat :=
  (acc.1 ++ [mkSectionNode acc.2.2 s],
   acc.2.1 ++ (if acc.2.2 > 1 then [mkChainEdge (acc.2.2 - 1) acc.2.2] else []),
   acc.2.2 + 1)

/-- One iteration of the for loop over legalSections. -/
def graphStep (text : String) (acc : List GraphNode × List GraphEdge × Nat) (s : String) :
    List GraphNode × List GraphEdge × Nat :=
  if sectionRegexTest s text then graphEmit acc s else acc

/-- The default node emitted when no section label matched. -/
def fallbackNode : GraphNode :=
  { id := 1, label := "Legal Document", color := "#FFD700", title := "Legal Document Content" }

/-- offlineService.generateGraphDataFromText.  The surrounding try/catch is
dead code since the body performs no throwing operation, so it is omitted. -/
def generateGraphDataFromText (text : String) : GraphData :=
  let r := legalSections.foldl (graphStep text) ([], [], 1)
  if r.1.isEmpty then { nodes := [fallbackNode], edges := [] }
  else { nodes := r.1, edges := r.2.1 }

/-! ## Shared mutable state of offlineService.ts

The module holds two globals: `let vectorStore: MemoryVectorStore | null`
and `const chatHistory = new Map<string, x7b human, ai x7d[]>()`.  The
vector store is modelled by the list of chunk texts it was built from
(embeddings are produced by the opaque embedding provider and only ever
consumed by the equally opaque retriever, so the chunk list is the whole
observable content); the Map is modelled by an association list with
first-match lookup and in-place update. -/

/-- One stored conversation turn: x7b human, ai x7d. -/
structure ChatTurn where
  human : String
  ai : String
deriving DecidableEq, Repr

/-- The chatHistory Map. -/
abbrev HistoryMap := List (String × List ChatTurn)

/-- Map.get / Map.has. -/
def mapGet (m : HistoryMap) (k : String) : Option (List ChatTurn) :=
  match m with
  | [] => none
  | (k1, v) :: rest => if k1 = k then some v else mapGet rest k

/-- Map.set. -/
def mapSet (m : HistoryMap) (k : String) (v : List ChatTurn) : HistoryMap :=
  match m with
  | [] => [(k, v)]
  | (k1, v1) :: rest => if k1 = k then (k, v) :: rest else (k1, v1) :: mapSet rest k v

/-- The two module-level globals of offlineService.ts. -/
structure OfflineState where
  vectorStore : Option (List String)
  chatHistory : HistoryMap
deriving DecidableEq, Repr

/-- A browser File value: name plus opaque binary content. -/
structure JsFile where
  name : String
  content : String
deriving DecidableEq, Repr

/-- The injected external capabilities: pdfjs text extraction, the langchain
RecursiveCharacterTextSplitter (library code, not part of this repository),
MemoryVectorStore.fromDocuments with OllamaEmbeddings (embedding the chunks;
on success the store holds exactly those chunks), the retriever over the
current store, and llm.invoke.  Each fallible one returns Except, the error
carrying the thrown message. -/
structure Providers where
  extract : JsFile → Except String String
  split : String → List String
  embedStore : List String → Except String Unit
  retrieve : List String → String → Except String (List String)
  generate : String → Except String String

/-- Result shape of processPdfOffline. -/
structure PdfProcessResult where
  message : String
  index_name : String
  graphData : Option GraphData
deriving DecidableEq, Repr

/-- Result shape of chatWithTopicOffline. -/
structure ChatResult where
  ai_response : String
deriving DecidableEq, Repr

/-- offlineService.processPdfOffline: extract, split, embed into a fresh
in-memory store replacing the global slot, derive the graph, and return the
fixed index name.  Any failure inside the try is re-thrown as the stable
message; on the failure paths the global state is untouched because the
assignment to vectorStore only happens after fromDocuments succeeded. -/
def processPdfOffline (P : Providers) (file : JsFile) (st : OfflineState) :
    Except String PdfProcessResult × OfflineState :=
  match P.extract file with
  | .error _ => (.error "Failed to process PDF for offline use.", st)
  | .ok fullText =>
    let chunks := P.split fullText
    match P.embedStore chunks with
    | .error _ => (.error "Failed to process PDF for offline use.", st)
    | .ok _ =>
      let graphData := generateGraphDataFromText fullText
      (.ok { message := "Document processed successfully for offline use.",
             index_name := "local-memory",
             graphData := some graphData },
       { st with vectorStore := some chunks })

/-- relevantDocs.map(pageContent).join of the source; the separator is the
two-newline string. -/
def joinSep (sep : String) : List String → String
  | [] => ""
  | [x] => x
  | x :: y :: xs => x ++ sep ++ joinSep sep (y :: xs)

/-- The conversation-history block built by concatenating
"Human: ..." and "Assistant: ..." lines for every stored turn. -/
def historyBlock (history : List ChatTurn) : String :=
  history.foldl
    (fun acc e =>
      acc ++ "Human: " ++ e.human ++ "\n\n" ++ "Assistant: " ++ e.ai ++ "\n\n") ""

/-- The system prompt template of chatWithTopicOffline with the retrieved
context spliced in. -/
def chatSystemPrompt (contextText : String) : String :=
  "You are an expert AI tutor for legal document analysis.\n" ++
  "Your goal is to provide accurate and helpful answers based on the document content provided below. \n" ++
  "Please prioritize the information from the document and provide clear, well-structured responses.\n" ++
  "\nDOCUMENT CONTEXT:\n---\n" ++ contextText ++ "\n---"

/-- Assembly of the full prompt: system part, the previous conversation when
the history block is non-empty (the JS truthiness test on the string), and
the current question. -/
def buildChatPrompt (contextText : String) (history : List ChatTurn) (userMessage : String) :
    String :=
  let conversationHistory := historyBlock history
  let base := chatSystemPrompt contextText
  let withHist :=
    if conversationHistory = "" then base
    else base ++ "\n\nPREVIOUS CONVERSATION:\n" ++ conversationHistory
  withHist ++ "\n\nCurrent Question: " ++ userMessage

/-- history.push(turn) followed by the cap: if the length exceeds 10, splice
away everything but the last 10 entries. -/
def appendCapped (history : List ChatTurn) (turn : ChatTurn) : List ChatTurn :=
  let h2 := history ++ [turn]
  if h2.length > 10 then h2.drop (h2.length - 10) else h2

/-- offlineService.chatWithTopicOffline.  The null-store check precedes the
try block, so its message reaches the caller unwrapped; errors inside the try
are re-thrown as the stable message.  Note the order of effects in the
source: the Map entry for a fresh chatId is created (empty) BEFORE
llm.invoke runs, so a generation failure leaves that empty entry behind;
the turn itself is pushed only after generation succeeded. -/
def chatWithTopicOffline (P : Providers) (chatId userMessage : String) (st : OfflineState) :
    Except String ChatResult × OfflineState :=
  match st.vectorStore with
  | none => (.error "No document has been processed for offline use.", st)
  | some store =>
    match P.retrieve store userMessage with
    | .error _ => (.error "Failed to get chat response offline.", st)
    | .ok relevantDocs =>
      let contextText := joinSep "\n\n" relevantDocs
      let st1 :=
        if (mapGet st.chatHistory chatId).isSome then st
        else { st with chatHistory := mapSet st.chatHistory chatId [] }
      let history := (mapGet st.chatHistory chatId).getD []
      let fullPrompt := buildChatPrompt contextText history userMessage
      match P.generate fullPrompt with
      | .error _ => (.error "Failed to get chat response offline.", st1)
      | .ok aiResponse =>
        let newHistory := appendCapped history { human := userMessage, ai := aiResponse }
        (.ok { ai_response := aiResponse },
         { st1 with chatHistory := mapSet st1.chatHistory chatId newHistory })

/-! ## apiService.ts -/

/-- Normalized result of processDocument. -/
structure ProcessDocumentResponse where
  documentId : String
  title : String
  status : String
  graphData : Option GraphData
deriving DecidableEq, Repr

/-- Normalized result of askQuestion. -/
structure AskQuestionResponse where
  answer : String
  sources : List String
deriving DecidableEq, Repr

/-- The source argument of processDocument: a File or a URL string. -/
inductive DocSource where
  | file (f : JsFile)
  | url (u : String)
deriving DecidableEq, Repr

/-- Routing outcome of one public method. -/
inductive Route where
  | online
  | offline
deriving DecidableEq, Repr

/-- processDocument branches on (this.isOnline && isOnline()): the configured
flag AND navigator.onLine. -/
def processDocumentRoute (flag conn : Bool) : Route :=
  if flag && conn then .online else .offline

/-- askQuestion branches on (this.isOnline && isOnline()). -/
def askQuestionRoute (flag conn : Bool) : Route :=
  if flag && conn then .online else .offline

/-- getSummary branches on (this.isOnline && isOnline()). -/
def getSummaryRoute (flag conn : Bool) : Route :=
  if flag && conn then .online else .offline

/-- summarizeLegalDocument branches on (this.isOnline && isOnline()). -/
def summarizeLegalDocumentRoute (flag conn : Bool) : Route :=
  if flag && conn then .online else .offline

/-- fetchGraphData branches on (this.isOnline) ALONE: unlike every other
public method it does not consult the navigator.onLine connectivity check. -/
def fetchGraphDataRoute (flag conn : Bool) : Route :=
  if flag then .online else .offline

/-- JS (s || dflt) on a string: the empty string is falsy. -/
def jsStringOr (s dflt : String) : String := if s = "" then dflt else s

/-- JS (s || dflt) on a possibly-absent string field. -/
def jsOptStringOr (s : Option String) (dflt : String) : String :=
  match s with
  | none => dflt
  | some v => if v = "" then dflt else v

/-- The fetch response of POST /api/process-pdf as the client observes it:
the ok flag and status of the HTTP layer, the body text used for the error
message, and the parsed JSON fields index_name and graph_data. -/
structure HttpProcessResponse where
  ok : Bool
  status : Nat
  bodyText : String
  index_name : Option String
  graph_data : Option GraphData
deriving Repr

/-- The fetch response of POST /api/chat. -/
structure HttpChatResponse where
  ok : Bool
  status : Nat
  bodyText : String
  ai_response : String
deriving Repr

/-- ApiService.processDocumentOnline: URL sources are rejected; on a non-2xx
response the HTTP error is thrown; on success the backend response is
normalized, renaming index_name to documentId with the "nerv" fallback for a
missing or empty value. -/
def processDocumentOnline (resp : HttpProcessResponse) (source : DocSource) :
    Except String ProcessDocumentResponse :=
  match source with
  | .url _ => .error "YouTube processing is not available with the current backend"
  | .file f =>
    if resp.ok then
      .ok { documentId := jsOptStringOr resp.index_name "nerv",
            title := jsStringOr f.name "Processed Document",
            status := "success",
            graphData := resp.graph_data }
    else
      .error ("HTTP error! status: " ++ toString resp.status ++ " - " ++ resp.bodyText)

/-- ApiService.processDocumentOffline: URL sources throw; file sources run
processPdfOffline and normalize its result. -/
def processDocumentOffline (P : Providers) (source : DocSource) (st : OfflineState) :
    Except String ProcessDocumentResponse × OfflineState :=
  match source with
  | .url _ => (.error "YouTube processing not implemented in offline mode", st)
  | .file f =>
    match processPdfOffline P f st with
    | (.error e, st1) => (.error e, st1)
    | (.ok r, st1) =>
      (.ok { documentId := r.index_name,
             title := jsStringOr f.name "Processed Document",
             status := "success",
             graphData := r.graphData }, st1)

/-- ApiService.processDocument.  The try/catch wrapper is dead for rejections
(the promise is returned without await), so each branch's error reaches the
caller unchanged. -/
def ApiService.processDocument (P : Providers) (resp : HttpProcessResponse)
    (flag conn : Bool) (source : DocSource) (st : OfflineState) :
    Except String ProcessDocumentResponse × OfflineState :=
  match processDocumentRoute flag conn with
  | .online => (processDocumentOnline resp source, st)
  | .offline => processDocumentOffline P source st

/-- ApiService.askQuestionOffline: delegate to chatWithTopicOffline and wrap
the answer; the offline path never returns sources. -/
def askQuestionOffline (P : Providers) (documentId question : String) (st : OfflineState) :
    Except String AskQuestionResponse × OfflineState :=
  match chatWithTopicOffline P documentId question st with
  | (.error e, st1) => (.error e, st1)
  | (.ok r, st1) => (.ok { answer := r.ai_response, sources := [] }, st1)

/-- ApiService.askQuestionOnline: POST /api/chat and normalize. -/
def askQuestionOnline (resp : HttpChatResponse) : Except String AskQuestionResponse :=
  if resp.ok then .ok { answer := resp.ai_response, sources := [] }
  else .error ("HTTP error! status: " ++ toString resp.status ++ " - " ++ resp.bodyText)

/-- ApiService.askQuestion.  As with processDocument, the catch wrapper never
observes the inner rejection, which reaches the caller unchanged. -/
def ApiService.askQuestion (P : Providers) (resp : HttpChatResponse) (flag conn : Bool)
    (documentId question : String) (st : OfflineState) :
    Except String AskQuestionResponse × OfflineState :=
  match askQuestionRoute flag conn with
  | .online => (askQuestionOnline resp, st)
  | .offline => askQuestionOffline P documentId question st

/-! ## The chunker

The repository configures RecursiveCharacterTextSplitter with
chunkSize 1000 and chunkOverlap 150; the splitter itself is langchain
library code and is not part of this repository. -/

/-- Modelled from the spec: the Chunker of section 4.3 — the splitter
implementation (langchain RecursiveCharacterTextSplitter) is missing from
the repository sources, so this follows the specified contract: a
deterministic sliding window of chunkSize characters advancing by
(chunkSize - chunkOverlap), adjacent chunks sharing chunkOverlap characters,
and a single chunk when the input is no longer than chunkSize.  Parameters
with ov ≥ size are invalid per the spec; the guard returns the whole text
unsplit for them.  The fuel argument only bounds the recursion; every step
shortens the text by at least one character, so fuel equal to the text
length (as supplied by chunkText) never runs out. -/
def chunkGo (size ov : Nat) : Nat → List Char → List (List Char)
  | 0, t => [t]
  | fuel + 1, t =>
    if t.length ≤ size ∨ size ≤ ov then [t]
    else (t.take size) :: chunkGo size ov fuel (t.drop (size - ov))

/-- Modelled from the spec: the chunker applied to a text. -/
def chunkText (size ov : Nat) (t : List Char) : List (List Char) :=
  chunkGo size ov t.length t

/-- Concatenation of the chunks stripping the known overlap length from every
chunk after the first. -/
def reconstruct (ov : Nat) : List (List Char) → List Char
  | [] => []
  | c :: cs => c ++ (cs.map (List.drop ov)).flatten

/-! ## Concrete providers and responses used by witnesses and
counterexamples -/

/-- Providers whose every capability succeeds. -/
def PAllOk : Providers :=
  { extract := fun f => .ok f.content,
    split := fun t => [t],
    embedStore := fun _ => .ok (),
    retrieve := fun _ _ => .ok [],
    generate := fun _ => .ok "ans" }

/-- Providers whose generation step (llm.invoke) fails. -/
def PFailGenerate : Providers :=
  { PAllOk with generate := fun _ => .error "model unavailable" }

/-- Providers whose pdf extraction fails. -/
def PFailExtract : Providers :=
  { PAllOk with extract := fun _ => .error "malformed pdf" }

/-- A 2xx process-pdf response with the given index_name value. -/
def processOkResp (name : Option String) : HttpProcessResponse :=
  { ok := true, status := 200, bodyText := "", index_name := name, graph_data := none }

/-- A 2xx chat response. -/
def chatOkResp : HttpChatResponse :=
  { ok := true, status := 200, bodyText := "", ai_response := "hello" }

/-! ## Helper functions used to characterize the graph heuristic -/

/-- The nodes emitted for a run of matched sections starting at the given id. -/
def emitNodes (k : Nat) : List String → List GraphNode
  | [] => []
  | s :: ss => mkSectionNode k s :: emitNodes (k + 1) ss

/-- The edges emitted for n matched sections whose first node id is k,
each new node chained to the previous one. -/
def emitEdges (k : Nat) : Nat → List GraphEdge
  | 0 => []
  | n + 1 => mkChainEdge (k - 1) k :: emitEdges (k + 1) n

/-! ## Claim C1: mode routing -/

/-- C1 counterexample: with the configured flag online and platform
connectivity reporting false, fetchGraphData routes to the online path and
not to the offline path, refuting the claim that every Mode Router
operation routes offline in that situation (fetchGraphData tests only the
configured flag). -/
theorem c1_counterexample :
    fetchGraphDataRoute true false = Route.online ∧
    fetchGraphDataRoute true false ≠ Route.offline := by
  decide

/-- C1 (amended): processDocument, askQuestion, getSummary and
summarizeLegalDocument route online exactly when the configured flag and the
platform connectivity check are both true, while fetchGraphData consults the
configured flag alone, so it routes online whenever the flag is set even if
connectivity reports false. -/
theorem c1_mode_routing (flag conn : Bool) :
    (processDocumentRoute flag conn = Route.online ↔ (flag = true ∧ conn = true)) ∧
    (askQuestionRoute flag conn = Route.online ↔ (flag = true ∧ conn = true)) ∧
    (getSummaryRoute flag conn = Route.online ↔ (flag = true ∧ conn = true)) ∧
    (summarizeLegalDocumentRoute flag conn = Route.online ↔ (flag = true ∧ conn = true)) ∧
    (fetchGraphDataRoute flag conn = Route.online ↔ flag = true) := by
  cases flag <;> cases conn <;> decide

/-! ## Claim C5: ask before upload -/

/-- C5: whenever askQuestion routes offline and the vector store slot is
still null, the call fails with the no-document-indexed error ("No document
has been processed for offline use."), produces no answer, and leaves the
state untouched. -/
theorem c5_ask_before_upload (P : Providers) (resp : HttpChatResponse)
    (flag conn : Bool) (cid q : String) (st : OfflineState)
    (hroute : askQuestionRoute flag conn = Route.offline)
    (hvs : st.vectorStore = none) :
    ApiService.askQuestion P resp flag conn cid q st
      = (.error "No document has been processed for offline use.", st) := by
  unfold ApiService.askQuestion
  rw [hroute]
  unfold askQuestionOffline chatWithTopicOffline
  rw [hvs]

/-- C5 witness: the concrete ask-before-upload scenario of the spec. -/
theorem c5_witness :
    askQuestionRoute false false = Route.offline ∧
    (OfflineState.mk none []).vectorStore = none ∧
    ApiService.askQuestion PAllOk chatOkResp false false "doc1" "hi"
        { vectorStore := none, chatHistory := [] }
      = (.error "No document has been processed for offline use.",
         { vectorStore := none, chatHistory := [] }) :=
  ⟨rfl, rfl,
   c5_ask_before_upload PAllOk chatOkResp false false "doc1" "hi"
     { vectorStore := none, chatHistory := [] } rfl rfl⟩

/-! ## Claim C6: error message normalization at the Mode Router boundary -/

/-- C6: evaluation of the code at the failing inputs.  Because every public
method returns the inner promise from its try block without awaiting it, the
catch clause never observes the rejection, so the caller receives the inner
error unchanged: askQuestion before any upload surfaces "No document has been
processed for offline use." rather than the stable "Failed to get answer",
and processDocument on an offline URL surfaces "YouTube processing not
implemented in offline mode" rather than "Failed to process document". -/
theorem c6_wrapper_catch_dead :
    (ApiService.askQuestion PAllOk chatOkResp false false "doc1" "hi"
        { vectorStore := none, chatHistory := [] }).1
      = .error "No document has been processed for offline use." ∧
    "No document has been processed for offline use." ≠ "Failed to get answer" ∧
    (ApiService.processDocument PAllOk (processOkResp none) false false
        (.url "https://youtube.com/watch") { vectorStore := none, chatHistory := [] }).1
      = .error "YouTube processing not implemented in offline mode" ∧
    "YouTube processing not implemented in offline mode" ≠ "Failed to process document" ∧
    (ApiService.askQuestion PAllOk
        { ok := false, status := 500, bodyText := "boom", ai_response := "" }
        true true "doc1" "hi" { vectorStore := none, chatHistory := [] }).1
      = .error "HTTP error! status: 500 - boom" := by
  exact ⟨rfl, by decide, rfl, by decide, rfl⟩

/-! ## Claim C7: remote normalization of index_name -/

/-- C7 counterexample: a 2xx backend response whose JSON body contains
index_name with the empty-string value yields documentId "nerv", not the
index_name value, because the normalization uses the JS falsy-or fallback. -/
theorem c7_counterexample :
    processDocumentOnline
        { ok := true, status := 200, bodyText := "",
          index_name := some "", graph_data := none }
        (.file { name := "a.pdf", content := "x" })
      = .ok { documentId := "nerv", title := "a.pdf", status := "success",
              graphData := none } ∧
    ("nerv" : String) ≠ "" := by
  exact ⟨rfl, by decide⟩

/-- C7 (amended): for a 2xx response whose index_name value is non-empty,
the normalized ProcessResult carries documentId equal to that value and
status "success"; an empty or missing index_name falls back to the constant
"nerv". -/
theorem c7_remote_normalization (resp : HttpProcessResponse) (f : JsFile)
    (name : String) (hok : resp.ok = true) (hname : resp.index_name = some name)
    (hne : name ≠ "") :
    processDocumentOnline resp (.file f)
      = .ok { documentId := name, title := jsStringOr f.name "Processed Document",
              status := "success", graphData := resp.graph_data } := by
  unfold processDocumentOnline
  simp [hok, hname, jsOptStringOr, hne]

/-- C7 witness: the spec scenario — a mocked backend returning index_name
"nerv" yields documentId "nerv". -/
theorem c7_witness :
    processDocumentOnline
        { ok := true, status := 200, bodyText := "",
          index_name := some "nerv", graph_data := none }
        (.file { name := "doc.pdf", content := "x" })
      = .ok { documentId := "nerv", title := "doc.pdf", status := "success",
              graphData := none } := by
  exact c7_remote_normalization _ _ "nerv" rfl rfl (by decide)

/-! ## Claim C9: URL source while offline -/

/-- C9: a URL source given to processDocument while the route is offline
fails with the unsupported-source error and leaves the state unchanged; the
result does not depend on any provider, so the offline PDF pipeline is never
consulted. -/
theorem c9_url_offline_unsupported (P : Providers) (resp : HttpProcessResponse)
    (flag conn : Bool) (u : String) (st : OfflineState)
    (hroute : processDocumentRoute flag conn = Route.offline) :
    ApiService.processDocument P resp flag conn (.url u) st
      = (.error "YouTube processing not implemented in offline mode", st) := by
  unfold ApiService.processDocument
  rw [hroute]
  rfl

/-- C9 witness: configured online but connectivity false, so the route is
offline; a YouTube URL is rejected with the unsupported-source error. -/
theorem c9_witness :
    processDocumentRoute true false = Route.offline ∧
    ApiService.processDocument PAllOk (processOkResp (some "nerv")) true false
        (.url "https://youtube.com/watch") { vectorStore := none, chatHistory := [] }
      = (.error "YouTube processing not implemented in offline mode",
         { vectorStore := none, chatHistory := [] }) :=
  ⟨rfl,
   c9_url_offline_unsupported PAllOk (processOkResp (some "nerv")) true false
     "https://youtube.com/watch" { vectorStore := none, chatHistory := [] } rfl⟩

/-! ## Association-list lemmas for the chatHistory Map -/

theorem mapGet_mapSet_self (m : HistoryMap) (k : String) (v : List ChatTurn) :
    mapGet (mapSet m k v) k = some v := by
  induction m with
  | nil => simp [mapGet, mapSet]
  | cons p rest ih =>
    obtain ⟨k1, v1⟩ := p
    by_cases h : k1 = k
    · subst h; simp [mapGet, mapSet]
    · simp [mapGet, mapSet, h, ih]

theorem mapGet_mapSet_ne (m : HistoryMap) (k k2 : String) (v : List ChatTurn)
    (h : k ≠ k2) :
    mapGet (mapSet m k v) k2 = mapGet m k2 := by
  induction m with
  | nil => simp [mapGet, mapSet, h]
  | cons p rest ih =>
    obtain ⟨k1, v1⟩ := p
    by_cases h1 : k1 = k
    · subst h1
      simp [mapGet, mapSet, h]
    · by_cases h2 : k1 = k2
      · subst h2; simp [mapGet, mapSet, h1]
      · simp [mapGet, mapSet, h1, h2, ih]

/-! ## Claim C2: failed operations and shared state -/

/-- C2 counterexample: a chat turn whose generation step fails, issued for a
conversation id with no prior history, leaves the Conversation Store with a
new (empty) entry for that id: the shared state after the failed call is not
exactly the state before it, because the Map entry is created before
llm.invoke runs. -/
theorem c2_counterexample :
    chatWithTopicOffline PFailGenerate "c1" "hi"
        { vectorStore := some ["chunk"], chatHistory := [] }
      = (.error "Failed to get chat response offline.",
         { vectorStore := some ["chunk"], chatHistory := [("c1", [])] }) ∧
    ({ vectorStore := some ["chunk"], chatHistory := [("c1", [])] } : OfflineState)
      ≠ { vectorStore := some ["chunk"], chatHistory := [] } := by
  exact ⟨rfl, by decide⟩

/-- C2 (amended): a failed processPdfOffline leaves the state entirely
unchanged (in particular a previously built Vector Index stays in place);
a failed chat turn leaves the Vector Index and the stored turn list of every
conversation id unchanged — no turn is partially written — though it may
register a new empty history entry for a previously unseen conversation
id. -/
theorem c2_failure_state_isolation (P : Providers) (f : JsFile)
    (cid msg : String) (st : OfflineState) :
    (∀ e st1, processPdfOffline P f st = (.error e, st1) → st1 = st) ∧
    (∀ e st1, chatWithTopicOffline P cid msg st = (.error e, st1) →
      st1.vectorStore = st.vectorStore ∧
      ∀ k, (mapGet st1.chatHistory k).getD [] = (mapGet st.chatHistory k).getD []) := by
  constructor
  · intro e st1 h
    unfold processPdfOffline at h
    split at h
    · simp only [Prod.mk.injEq] at h
      exact h.2.symm
    · dsimp only at h
      split at h
      · simp only [Prod.mk.injEq] at h
        exact h.2.symm
      · simp at h
  · intro e st1 h
    unfold chatWithTopicOffline at h
    split at h
    · simp only [Prod.mk.injEq] at h
      obtain ⟨-, h2⟩ := h
      subst h2
      exact ⟨rfl, fun k => rfl⟩
    · split at h
      · simp only [Prod.mk.injEq] at h
        obtain ⟨-, h2⟩ := h
        subst h2
        exact ⟨rfl, fun k => rfl⟩
      · dsimp only at h
        split at h
        · simp only [Prod.mk.injEq] at h
          obtain ⟨-, h2⟩ := h
          subst h2
          by_cases hhas : (mapGet st.chatHistory cid).isSome
          · rw [if_pos hhas]
            exact ⟨rfl, fun k => rfl⟩
          · rw [if_neg hhas]
            refine ⟨rfl, fun k => ?_⟩
            by_cases hk : k = cid
            · subst hk
              rw [mapGet_mapSet_self]
              rw [Option.not_isSome_iff_eq_none] at hhas
              rw [hhas]
              rfl
            · rw [mapGet_mapSet_ne _ _ _ _ (fun hc => hk hc.symm)]
        · simp at h

/-- C2 witness: the amended theorem applied to an extraction failure during
processDocument with a previously built index (the state, index included, is
unchanged) and to a generation failure during a chat turn (the Vector Index
and the turn list of the issuing conversation are unchanged). -/
theorem c2_witness :
    ({ vectorStore := some ["old"], chatHistory := [] } : OfflineState)
        = { vectorStore := some ["old"], chatHistory := [] } ∧
    ({ vectorStore := some ["chunk"], chatHistory := [("c1", [])] }
        : OfflineState).vectorStore
      = ({ vectorStore := some ["chunk"], chatHistory := [] }
        : OfflineState).vectorStore ∧
    (mapGet ({ vectorStore := some ["chunk"], chatHistory := [("c1", [])] }
        : OfflineState).chatHistory "c1").getD []
      = (mapGet ({ vectorStore := some ["chunk"], chatHistory := [] }
        : OfflineState).chatHistory "c1").getD [] := by
  refine ⟨?_, ?_, ?_⟩
  · exact (c2_failure_state_isolation PFailExtract { name := "a.pdf", content := "x" }
      "c" "m" { vectorStore := some ["old"], chatHistory := [] }).1
      "Failed to process PDF for offline use." _ rfl
  · exact ((c2_failure_state_isolation PFailGenerate { name := "", content := "" }
      "c1" "hi" { vectorStore := some ["chunk"], chatHistory := [] }).2
      "Failed to get chat response offline."
      { vectorStore := some ["chunk"], chatHistory := [("c1", [])] } rfl).1
  · exact ((c2_failure_state_isolation PFailGenerate { name := "", content := "" }
      "c1" "hi" { vectorStore := some ["chunk"], chatHistory := [] }).2
      "Failed to get chat response offline."
      { vectorStore := some ["chunk"], chatHistory := [("c1", [])] } rfl).2 "c1"

/-! ## Claim C10: offline processDocument constants -/

/-- C10: every successful offline-routed processDocument on a file returns
documentId "local-memory" (the only documentId the offline path can
produce), status "success", and the file name as title with the
"Processed Document" fallback for an empty name. -/
theorem c10_offline_process_constants (P : Providers) (resp : HttpProcessResponse)
    (flag conn : Bool) (f : JsFile) (st st1 : OfflineState)
    (r : ProcessDocumentResponse)
    (hroute : processDocumentRoute flag conn = Route.offline)
    (hok : ApiService.processDocument P resp flag conn (.file f) st = (.ok r, st1)) :
    r.documentId = "local-memory" ∧ r.status = "success" ∧
    r.title = (if f.name = "" then "Processed Document" else f.name) := by
  unfold ApiService.processDocument at hok
  rw [hroute] at hok
  unfold processDocumentOffline processPdfOffline at hok
  dsimp only at hok
  cases hex : P.extract f with
  | error e =>
    rw [hex] at hok
    simp at hok
  | ok fullText =>
    rw [hex] at hok
    dsimp only at hok
    cases hemb : P.embedStore (P.split fullText) with
    | error e =>
      rw [hemb] at hok
      simp at hok
    | ok u =>
      rw [hemb] at hok
      dsimp only at hok
      simp only [Prod.mk.injEq, Except.ok.injEq] at hok
      obtain ⟨hr, -⟩ := hok
      subst hr
      exact ⟨rfl, rfl, rfl⟩

/-- C10 witness: the theorem applied to a concrete successful offline
processDocument call. -/
theorem c10_witness :
    ({ documentId := "local-memory", title := "a.pdf", status := "success",
       graphData := some (generateGraphDataFromText "hello") }
      : ProcessDocumentResponse).documentId = "local-memory" ∧
    ({ documentId := "local-memory", title := "a.pdf", status := "success",
       graphData := some (generateGraphDataFromText "hello") }
      : ProcessDocumentResponse).status = "success" ∧
    ({ documentId := "local-memory", title := "a.pdf", status := "success",
       graphData := some (generateGraphDataFromText "hello") }
      : ProcessDocumentResponse).title
      = (if ("a.pdf" : String) = "" then "Processed Document" else "a.pdf") := by
  exact c10_offline_process_constants PAllOk (processOkResp none) false false
    { name := "a.pdf", content := "hello" }
    { vectorStore := none, chatHistory := [] }
    { vectorStore := some ["hello"], chatHistory := [] }
    { documentId := "local-memory", title := "a.pdf", status := "success",
      graphData := some (generateGraphDataFromText "hello") }
    rfl rfl

/-! ## Claim C4: the bounded history window -/

theorem appendCapped_eq_drop (h : List ChatTurn) (t : ChatTurn) :
    appendCapped h t = (h ++ [t]).drop ((h ++ [t]).length - 10) := by
  unfold appendCapped
  by_cases hl : (h ++ [t]).length > 10
  · rw [if_pos hl]
  · rw [if_neg hl]
    have h0 : (h ++ [t]).length - 10 = 0 := by omega
    rw [h0, List.drop_zero]

theorem drop_excess_append (l m : List ChatTurn) :
    (l.drop (l.length - 10) ++ m).drop ((l.drop (l.length - 10) ++ m).length - 10)
      = (l ++ m).drop ((l ++ m).length - 10) := by
  rw [List.drop_append_eq_append_drop, List.drop_append_eq_append_drop,
    List.drop_drop]
  congr 1
  · congr 1
    simp only [List.length_append, List.length_drop]
    omega
  · congr 1
    simp only [List.length_append, List.length_drop]
    omega

theorem foldl_appendCapped (ts : List ChatTurn) :
    ∀ l : List ChatTurn,
      ts.foldl appendCapped (l.drop (l.length - 10))
        = (l ++ ts).drop ((l ++ ts).length - 10) := by
  induction ts with
  | nil => intro l; simp
  | cons t ts ih =>
    intro l
    rw [List.foldl_cons, appendCapped_eq_drop, drop_excess_append l [t],
      ih (l ++ [t])]
    simp [List.append_assoc]

/-- C4: iterating the history update of chatWithTopicOffline from an empty
history over any sequence of turns keeps the stored length at most 10,
stores exactly the most recent turns (the oldest are evicted first), and
after 11 turns stores exactly the last 10; moreover every successful chat
turn stores precisely that update of the previous history, so the bound
holds for the Conversation Store after any sequence of successful calls. -/
theorem c4_history_window (ts : List ChatTurn) :
    (ts.foldl appendCapped []).length ≤ 10 ∧
    ts.foldl appendCapped [] = ts.drop (ts.length - 10) ∧
    (ts.length = 11 →
      (ts.foldl appendCapped []).length = 10 ∧
      ts.foldl appendCapped [] = ts.drop 1) ∧
    (∀ (P : Providers) (cid msg : String) (st : OfflineState) (r : ChatResult)
        (st1 : OfflineState),
      chatWithTopicOffline P cid msg st = (.ok r, st1) →
      mapGet st1.chatHistory cid
        = some (appendCapped ((mapGet st.chatHistory cid).getD [])
            { human := msg, ai := r.ai_response })) := by
  have hfold : ts.foldl appendCapped [] = ts.drop (ts.length - 10) := by
    have h := foldl_appendCapped ts []
    simpa using h
  refine ⟨?_, hfold, ?_, ?_⟩
  · rw [hfold, List.length_drop]
    omega
  · intro h11
    rw [hfold, List.length_drop, h11]
    exact ⟨by omega, rfl⟩
  · intro P cid msg st r st1 h
    unfold chatWithTopicOffline at h
    split at h
    · simp at h
    · split at h
      · simp at h
      · dsimp only at h
        split at h
        · simp at h
        · simp only [Prod.mk.injEq, Except.ok.injEq] at h
          obtain ⟨hr, h2⟩ := h
          subst h2
          by_cases hhas : (mapGet st.chatHistory cid).isSome
          · rw [if_pos hhas]
            dsimp only
            rw [mapGet_mapSet_self]
            rw [← hr]
          · rw [if_neg hhas]
            dsimp only
            rw [mapGet_mapSet_self]
            rw [← hr]

/-- C4 witness: after 11 turns the window holds exactly the last 10 turns,
and a concrete successful chat turn stores the capped update of the previous
history. -/
theorem c4_witness :
    ((((List.range 11).map (fun i => ChatTurn.mk (toString i) "r")).foldl
          appendCapped []).length = 10 ∧
     ((List.range 11).map (fun i => ChatTurn.mk (toString i) "r")).foldl
          appendCapped []
        = ((List.range 11).map (fun i => ChatTurn.mk (toString i) "r")).drop 1) ∧
    mapGet ({ vectorStore := some ["c"],
              chatHistory := [("c1", [ChatTurn.mk "hi" "ans"])] }
        : OfflineState).chatHistory "c1"
      = some (appendCapped
          ((mapGet ({ vectorStore := some ["c"], chatHistory := [] }
              : OfflineState).chatHistory "c1").getD [])
          { human := "hi", ai := "ans" }) := by
  constructor
  · exact (c4_history_window _).2.2.1 (by rfl)
  · exact (c4_history_window []).2.2.2 PAllOk "c1" "hi"
      { vectorStore := some ["c"], chatHistory := [] } { ai_response := "ans" }
      { vectorStore := some ["c"], chatHistory := [("c1", [ChatTurn.mk "hi" "ans"])] }
      rfl

/-! ## Claim C3: the graph-derivation heuristic -/

theorem foldl_graphStep_filter (text : String) (ss : List String) :
    ∀ acc, ss.foldl (graphStep text) acc
      = (ss.filter (fun s => sectionRegexTest s text)).foldl graphEmit acc := by
  induction ss with
  | nil => intro acc; rfl
  | cons s ss ih =>
    intro acc
    rw [List.foldl_cons, List.filter_cons]
    cases hc : sectionRegexTest s text with
    | true => simp [graphStep, hc, ih]
    | false => simp [graphStep, hc, ih]

theorem foldl_graphEmit_from (ss : List String) :
    ∀ (k : Nat) (ns : List GraphNode) (es : List GraphEdge), 2 ≤ k →
      ss.foldl graphEmit (ns, es, k)
        = (ns ++ emitNodes k ss, es ++ emitEdges k ss.length, k + ss.length) := by
  induction ss with
  | nil => intro k ns es hk; simp [emitNodes, emitEdges]
  | cons s ss ih =>
    intro k ns es hk
    rw [List.foldl_cons]
    have hgt : k > 1 := hk
    have hemit : graphEmit (ns, es, k) s
        = (ns ++ [mkSectionNode k s], es ++ [mkChainEdge (k - 1) k], k + 1) := by
      unfold graphEmit
      simp [hgt]
    rw [hemit, ih (k + 1) _ _ (by omega)]
    simp only [emitNodes, emitEdges, Prod.mk.injEq, List.length_cons]
    refine ⟨by simp, by simp, by omega⟩

theorem foldl_graphEmit_start (ms : List String) :
    ms.foldl graphEmit ([], [], 1)
      = (emitNodes 1 ms, emitEdges 2 (ms.length - 1), 1 + ms.length) := by
  cases ms with
  | nil => rfl
  | cons s ss =>
    rw [List.foldl_cons]
    have hemit : graphEmit ([], [], 1) s = ([mkSectionNode 1 s], [], 2) := by
      unfold graphEmit
      simp
    rw [hemit, foldl_graphEmit_from ss 2 _ _ (le_refl 2)]
    simp only [emitNodes, Prod.mk.injEq, List.length_cons]
    refine ⟨by simp, by simp, by omega⟩

theorem emitNodes_map_label (ss : List String) :
    ∀ k, (emitNodes k ss).map GraphNode.label = ss := by
  induction ss with
  | nil => intro k; rfl
  | cons s ss ih => intro k; simp [emitNodes, mkSectionNode, ih]

theorem emitNodes_map_id (ss : List String) :
    ∀ k, (emitNodes k ss).map GraphNode.id = List.range' k ss.length := by
  induction ss with
  | nil => intro k; rfl
  | cons s ss ih => intro k; simp [emitNodes, mkSectionNode, List.range'_succ, ih]

theorem emitNodes_length (ss : List String) :
    ∀ k, (emitNodes k ss).length = ss.length := by
  induction ss with
  | nil => intro k; rfl
  | cons s ss ih => intro k; simp [emitNodes, ih]

theorem emitEdges_length (n : Nat) : ∀ k, (emitEdges k n).length = n := by
  induction n with
  | zero => intro k; rfl
  | succ n ih => intro k; simp [emitEdges, ih]

theorem emitEdges_pairs (n : Nat) :
    ∀ k, 2 ≤ k →
      (emitEdges k n).map (fun e => (e.fromId, e.toId))
        = (List.range n).map (fun i => (k + i - 1, k + i)) := by
  induction n with
  | zero => intro k hk; rfl
  | succ n ih =>
    intro k hk
    have htail := ih (k + 1) (by omega)
    rw [List.range_succ_eq_map]
    simp only [emitEdges, List.map_cons, List.map_map, List.cons.injEq]
    refine ⟨by simp [mkChainEdge], ?_⟩
    rw [htail]
    apply List.map_congr_left
    intro i hi
    simp only [Function.comp_apply, Prod.mk.injEq]
    omega

theorem generateGraph_spec (text : String) :
    generateGraphDataFromText text
      = (if (legalSections.filter (fun s => sectionRegexTest s text)).isEmpty
         then { nodes := [fallbackNode], edges := [] }
         else
           { nodes := emitNodes 1 (legalSections.filter (fun s => sectionRegexTest s text)),
             edges := emitEdges 2
               ((legalSections.filter (fun s => sectionRegexTest s text)).length - 1) }) := by
  unfold generateGraphDataFromText
  rw [foldl_graphStep_filter]
  cases hfil : legalSections.filter (fun s => sectionRegexTest s text) with
  | nil => rfl
  | cons s ss =>
    rw [foldl_graphEmit_start]
    rfl

/-- C3: for every input text the heuristic emits one node per fixed-list
section label matching as a case-insensitive whole word, in the fixed list's
order, with consecutive ids starting at 1; each node after the first carries
one edge from the immediately previously emitted node, so the edge count is
the node count minus one; and when no label matches, exactly the single
fallback node and no edges are emitted. -/
theorem c3_graph_derivation (text : String) :
    (legalSections.filter (fun s => sectionRegexTest s text) = [] →
      generateGraphDataFromText text = { nodes := [fallbackNode], edges := [] }) ∧
    (legalSections.filter (fun s => sectionRegexTest s text) ≠ [] →
      (generateGraphDataFromText text).nodes.map GraphNode.label
          = legalSections.filter (fun s => sectionRegexTest s text) ∧
      (generateGraphDataFromText text).nodes.map GraphNode.id
          = List.range' 1 (legalSections.filter (fun s => sectionRegexTest s text)).length ∧
      (generateGraphDataFromText text).edges.map (fun e => (e.fromId, e.toId))
          = (List.range
              ((legalSections.filter (fun s => sectionRegexTest s text)).length - 1)).map
              (fun i => (i + 1, i + 2)) ∧
      (generateGraphDataFromText text).edges.length
          = (generateGraphDataFromText text).nodes.length - 1) := by
  have hspec := generateGraph_spec text
  constructor
  · intro hnil
    rw [hspec, hnil]
    rfl
  · intro hne
    have hie : (legalSections.filter (fun s => sectionRegexTest s text)).isEmpty = false := by
      cases hfil : legalSections.filter (fun s => sectionRegexTest s text) with
      | nil => exact absurd hfil hne
      | cons a l => rfl
    rw [hspec, if_neg (by simp [hie])]
    refine ⟨emitNodes_map_label _ _, emitNodes_map_id _ _, ?_, ?_⟩
    · rw [emitEdges_pairs _ 2 (le_refl 2)]
      apply List.map_congr_left
      intro i hi
      simp only [Prod.mk.injEq]
      omega
    · rw [emitEdges_length, emitNodes_length]

/-- C3 witness: on a text containing DEFINITIONS and TERMINATION the emitted
node labels are exactly the matching labels in fixed-list order. -/
theorem c3_witness :
    legalSections.filter
        (fun s => sectionRegexTest s "The DEFINITIONS section and the TERMINATION clause")
      = ["DEFINITIONS", "TERMINATION"] ∧
    (generateGraphDataFromText "The DEFINITIONS section and the TERMINATION clause").nodes.map
        GraphNode.label
      = legalSections.filter
          (fun s => sectionRegexTest s "The DEFINITIONS section and the TERMINATION clause") := by
  refine ⟨by decide, ?_⟩
  exact ((c3_graph_derivation "The DEFINITIONS section and the TERMINATION clause").2
    (by decide)).1

/-! ## Claim C8: the chunker contract -/

theorem chunkGo_zero (size ov : Nat) (t : List Char) :
    chunkGo size ov 0 t = [t] := rfl

theorem chunkGo_succ (size ov fuel : Nat) (t : List Char) :
    chunkGo size ov (fuel + 1) t
      = if t.length ≤ size ∨ size ≤ ov then [t]
        else (t.take size) :: chunkGo size ov fuel (t.drop (size - ov)) := rfl

theorem chunkGo_dropAll (size ov : Nat) (hov : ov < size) :
    ∀ (fuel : Nat) (t : List Char), t.length ≤ fuel →
      ((chunkGo size ov fuel t).map (List.drop ov)).flatten = t.drop ov := by
  intro fuel
  induction fuel with
  | zero =>
    intro t ht
    have ht0 : t = [] := List.eq_nil_of_length_eq_zero (Nat.le_zero.mp ht)
    subst ht0
    simp [chunkGo_zero]
  | succ fuel ih =>
    intro t ht
    rw [chunkGo_succ]
    by_cases hbase : t.length ≤ size ∨ size ≤ ov
    · rw [if_pos hbase]
      simp
    · rw [if_neg hbase]
      push_neg at hbase
      obtain ⟨hlen, hso⟩ := hbase
      have hrest : (t.drop (size - ov)).length ≤ fuel := by
        rw [List.length_drop]
        omega
      rw [List.map_cons, List.flatten_cons, ih _ hrest]
      rw [List.drop_take, List.drop_drop]
      have h1 : size - ov + ov = size := by omega
      rw [h1]
      have h2 : (t.drop ov).drop (size - ov) = t.drop size := by
        rw [List.drop_drop]
        congr 1
        omega
      rw [← h2, List.take_append_drop]

theorem reconstruct_chunkGo (size ov : Nat) (hov : ov < size) :
    ∀ (fuel : Nat) (t : List Char), t.length ≤ fuel →
      reconstruct ov (chunkGo size ov fuel t) = t := by
  intro fuel
  cases fuel with
  | zero =>
    intro t ht
    have ht0 : t = [] := List.eq_nil_of_length_eq_zero (Nat.le_zero.mp ht)
    subst ht0
    simp [chunkGo_zero, reconstruct]
  | succ fuel =>
    intro t ht
    rw [chunkGo_succ]
    by_cases hbase : t.length ≤ size ∨ size ≤ ov
    · rw [if_pos hbase]
      simp [reconstruct]
    · rw [if_neg hbase]
      push_neg at hbase
      obtain ⟨hlen, hso⟩ := hbase
      have hrest : (t.drop (size - ov)).length ≤ fuel := by
        rw [List.length_drop]
        omega
      simp only [reconstruct]
      rw [chunkGo_dropAll size ov hov fuel _ hrest]
      rw [List.drop_drop]
      have h1 : size - ov + ov = size := by omega
      rw [h1, List.take_append_drop]

theorem chunkGo_head (size ov : Nat) (hov : ov < size) :
    ∀ (fuel : Nat) (t : List Char), t.length ≤ fuel →
      (chunkGo size ov fuel t).head? = some (t.take (min size t.length)) := by
  intro fuel
  cases fuel with
  | zero =>
    intro t ht
    have ht0 : t = [] := List.eq_nil_of_length_eq_zero (Nat.le_zero.mp ht)
    subst ht0
    simp [chunkGo_zero]
  | succ fuel =>
    intro t ht
    rw [chunkGo_succ]
    by_cases hbase : t.length ≤ size ∨ size ≤ ov
    · rw [if_pos hbase]
      have hts : t.length ≤ size := by
        cases hbase with
        | inl h => exact h
        | inr h => omega
      have hmin : min size t.length = t.length := by omega
      simp [hmin, List.take_length]
    · rw [if_neg hbase]
      push_neg at hbase
      have hmin : min size t.length = size := by omega
      simp [hmin]

theorem chunkGo_chain (size ov : Nat) (hov : ov < size) :
    ∀ (fuel : Nat) (t : List Char), t.length ≤ fuel →
      (chunkGo size ov fuel t).Chain'
        (fun c1 c2 => c2.take ov = c1.drop (c1.length - ov) ∧ c1.length = size) := by
  intro fuel
  induction fuel with
  | zero =>
    intro t ht
    have ht0 : t = [] := List.eq_nil_of_length_eq_zero (Nat.le_zero.mp ht)
    subst ht0
    exact List.chain'_singleton _
  | succ fuel ih =>
    intro t ht
    rw [chunkGo_succ]
    by_cases hbase : t.length ≤ size ∨ size ≤ ov
    · rw [if_pos hbase]
      exact List.chain'_singleton _
    · rw [if_neg hbase]
      push_neg at hbase
      obtain ⟨hlen, hso⟩ := hbase
      have hrest : (t.drop (size - ov)).length ≤ fuel := by
        rw [List.length_drop]
        omega
      rw [List.chain'_cons']
      refine ⟨?_, ih _ hrest⟩
      intro b hb
      rw [chunkGo_head size ov hov fuel _ hrest] at hb
      have hb2 : (t.drop (size - ov)).take (min size (t.drop (size - ov)).length) = b := by
        simpa using hb
      subst hb2
      constructor
      · rw [List.take_take]
        have hrlen : (t.drop (size - ov)).length = t.length - (size - ov) :=
          List.length_drop _ _
        have hmin : min ov (min size (t.drop (size - ov)).length) = ov := by
          rw [hrlen]
          omega
        rw [hmin]
        have hlt : (t.take size).length = size := by
          rw [List.length_take]
          omega
        rw [hlt, List.drop_take]
        have h1 : size - (size - ov) = ov := by omega
        rw [h1]
      · rw [List.length_take]
        omega

/-- C8: for valid parameters (overlap strictly below chunk size) and
non-empty text, adjacent chunks of the spec-modelled chunker share exactly
the overlap (every non-final chunk has exactly chunkSize characters and its
final overlap-many characters are the next chunk's first overlap-many
characters), concatenating the chunks while stripping the known overlap
length from every later chunk recovers the text exactly, and a text no
longer than chunkSize yields exactly one chunk equal to the text. -/
theorem c8_chunker (size ov : Nat) (t : List Char) (hov : ov < size)
    (_hne : t ≠ []) :
    (t.length ≤ size → chunkText size ov t = [t]) ∧
    (chunkText size ov t).Chain'
      (fun c1 c2 => c2.take ov = c1.drop (c1.length - ov) ∧ c1.length = size) ∧
    reconstruct ov (chunkText size ov t) = t := by
  refine ⟨?_, ?_, ?_⟩
  · intro hts
    unfold chunkText
    cases hfl : t.length with
    | zero => rfl
    | succ n =>
      rw [chunkGo_succ, if_pos (Or.inl hts)]
  · exact chunkGo_chain size ov hov t.length t (le_refl _)
  · exact reconstruct_chunkGo size ov hov t.length t (le_refl _)

/-- C8 witness: with chunkSize 5 and overlap 2, a 3-character text yields a
single chunk equal to the text, and an 8-character text is reconstructed
exactly by stripping the overlap. -/
theorem c8_witness :
    (2 < 5 ∧ "abcdefgh".data ≠ []) ∧
    chunkText 5 2 "abc".data = ["abc".data] ∧
    reconstruct 2 (chunkText 5 2 "abcdefgh".data) = "abcdefgh".data := by
  refine ⟨⟨by decide, by decide⟩, ?_,
    (c8_chunker 5 2 "abcdefgh".data (by decide) (by decide)).2.2⟩
  exact (c8_chunker 5 2 "abc".data (by decide) (by decide)).1 (by decide)

end Keystone
